import Mathlib

/-!
Shallow embedding of the design-pattern examples of the code-everyday
repository, together with proofs of the behavioural laws stated in its
specification.  Each namespace embeds one pattern example; JavaScript
numbers are modelled as rationals (all numeric literals in the sources are
exact decimals), object identity is modelled by explicit identifier tokens,
and JavaScript exceptions are modelled with Except.
-/

/-- JavaScript String.prototype.endsWith, modelled on the character list of
the string: true when the suffix's characters are a suffix of the string's. -/
def jsEndsWith (s suffix : String) : Bool := suffix.data.isSuffixOf s.data

/-- JavaScript String.prototype.toLowerCase, modelled on the character
list. -/
def jsToLower (s : String) : String := ⟨s.data.map Char.toLower⟩

namespace Composite

/-- Embedding of the file-system component tree from composite.js.  A node is
either a File leaf (name and size in bytes) or a Directory holding an ordered
list of children; ProjectDirectory is a Directory subclass whose getType
returns "project", so directories carry an isProject flag.  The denormalized
parentPath strings affect only getPath/printing and are omitted. -/
inductive FSComponent where
  | file (name : String) (size : ℚ)
  | dir (isProject : Bool) (name : String) (children : List FSComponent)

/-- File.getName and Directory.getName return the stored name. -/
def FSComponent.getName : FSComponent → String
  | .file n _ => n
  | .dir _ n _ => n

/-- File.getType returns "file", Directory.getType returns "directory",
and the ProjectDirectory override returns "project". -/
def FSComponent.getType : FSComponent → String
  | .file _ _ => "file"
  | .dir false _ _ => "directory"
  | .dir true _ _ => "project"

/-- File.isLeaf returns true and Directory.isLeaf returns false. -/
def FSComponent.isLeaf : FSComponent → Bool
  | .file _ _ => true
  | .dir _ _ _ => false

mutual

/-- File.getSize returns the stored size; Directory.getSize reduces over the
children, adding each child.getSize() to a total that starts at 0. -/
def FSComponent.getSize : FSComponent → ℚ
  | .file _ s => s
  | .dir _ _ cs => FSComponent.sizeReduce 0 cs

/-- The reduce loop of Directory.getSize: total accumulated left to right. -/
def FSComponent.sizeReduce (total : ℚ) : List FSComponent → ℚ
  | [] => total
  | c :: cs => FSComponent.sizeReduce (total + FSComponent.getSize c) cs

end

mutual

/-- Directory.find: the directory itself is pushed when the predicate holds,
then each child is processed in order — a leaf child is pushed when the
predicate holds, a directory child contributes its own recursive find results.
The file case of this function is exactly the inline leaf check of the
source's loop, so calling find on a File mirrors how find treats file
children. -/
def FSComponent.find (p : FSComponent → Bool) : FSComponent → List FSComponent
  | .file n s => if p (.file n s) then [.file n s] else []
  | .dir b n cs =>
      (if p (.dir b n cs) then [FSComponent.dir b n cs] else [])
        ++ FSComponent.findInChildren p cs

/-- The forEach loop over children inside Directory.find. -/
def FSComponent.findInChildren (p : FSComponent → Bool) : List FSComponent → List FSComponent
  | [] => []
  | c :: cs => FSComponent.find p c ++ FSComponent.findInChildren p cs

end

/-- Directory.findByExtension: find with the predicate
component.getType() === 'file' && component.getName().endsWith(extension). -/
def FSComponent.findByExtension (c : FSComponent) (extension : String) : List FSComponent :=
  c.find (fun component => component.getType == "file" && jsEndsWith component.getName extension)

mutual

/-- Specification-side helper: the File leaves of a subtree in traversal
order.  Used to state what getSize and findByExtension compute. -/
def FSComponent.leafFiles : FSComponent → List FSComponent
  | .file n s => [.file n s]
  | .dir _ _ cs => FSComponent.leafFilesOf cs

/-- Leaves of a list of siblings, in order. -/
def FSComponent.leafFilesOf : List FSComponent → List FSComponent
  | [] => []
  | c :: cs => FSComponent.leafFiles c ++ FSComponent.leafFilesOf cs

end

/-- Structural induction over the nested tree, with a pointwise hypothesis on
children. -/
theorem FSComponent.inductionOn (P : FSComponent → Prop)
    (hfile : ∀ n s, P (.file n s))
    (hdir : ∀ b n cs, (∀ c ∈ cs, P c) → P (.dir b n cs)) :
    ∀ c, P c := fun c =>
  match c with
  | .file n s => hfile n s
  | .dir b n cs => hdir b n cs (fun x hx =>
      FSComponent.inductionOn P hfile hdir x)
termination_by c => sizeOf c
decreasing_by
  have h := List.sizeOf_lt_of_mem hx
  simp only [FSComponent.dir.sizeOf_spec]
  omega

theorem FSComponent.sizeReduce_eq (total : ℚ) (cs : List FSComponent) :
    FSComponent.sizeReduce total cs = total + (cs.map FSComponent.getSize).sum := by
  induction cs generalizing total with
  | nil => simp [FSComponent.sizeReduce]
  | cons c cs ih =>
      simp [FSComponent.sizeReduce, ih]
      ring

theorem FSComponent.getSize_dir (b : Bool) (nm : String) (cs : List FSComponent) :
    FSComponent.getSize (.dir b nm cs) = (cs.map FSComponent.getSize).sum := by
  simp [FSComponent.getSize, FSComponent.sizeReduce_eq]

theorem FSComponent.getSize_eq_leafFiles_sum (c : FSComponent) :
    FSComponent.getSize c = ((FSComponent.leafFiles c).map FSComponent.getSize).sum := by
  induction c using FSComponent.inductionOn with
  | hfile n s => simp [FSComponent.getSize, FSComponent.leafFiles]
  | hdir b n cs ih =>
      rw [FSComponent.getSize_dir]
      simp only [FSComponent.leafFiles]
      induction cs with
      | nil => simp [FSComponent.leafFilesOf]
      | cons c cs ihl =>
          simp only [FSComponent.leafFilesOf, List.map_cons, List.map_append,
            List.sum_cons, List.sum_append]
          rw [ih c (by simp)]
          rw [ihl (fun x hx => ih x (by simp [hx]))]

theorem FSComponent.find_ext_eq (ext : String) (c : FSComponent) :
    c.find (fun component => component.getType == "file" && jsEndsWith component.getName ext)
      = (c.leafFiles).filter
          (fun component => component.getType == "file" && jsEndsWith component.getName ext) := by
  induction c using FSComponent.inductionOn with
  | hfile n s => simp [FSComponent.find, FSComponent.leafFiles, List.filter_cons]
  | hdir b n cs ih =>
      have hp : (FSComponent.getType (FSComponent.dir b n cs) == "file") = false := by
        cases b <;> rfl
      simp only [FSComponent.find, FSComponent.leafFiles, hp, Bool.false_and,
        Bool.false_eq_true, if_false, List.nil_append]
      induction cs with
      | nil => simp [FSComponent.findInChildren, FSComponent.leafFilesOf]
      | cons c cs ihl =>
          simp only [FSComponent.findInChildren, FSComponent.leafFilesOf, List.filter_append]
          rw [ih c (by simp)]
          rw [ihl (fun x hx => ih x (by simp [hx])) (by cases b <;> rfl)]

/-- C2: for every Directory node of the composite file-system tree, getSize
equals the sum of the immediate children's sizes, and hence the recursive sum
of the sizes of all leaf File descendants; and findByExtension returns exactly
the leaf File descendants, at any depth, whose name ends with the given suffix
— in particular it returns only components whose type is "file" and whose
name ends with the suffix. -/
theorem c2_directory_size_and_findByExtension
    (b : Bool) (nm : String) (cs : List FSComponent) (ext : String) :
    FSComponent.getSize (.dir b nm cs) = (cs.map FSComponent.getSize).sum
    ∧ FSComponent.getSize (.dir b nm cs)
        = (((FSComponent.dir b nm cs).leafFiles).map FSComponent.getSize).sum
    ∧ (FSComponent.dir b nm cs).findByExtension ext
        = ((FSComponent.dir b nm cs).leafFiles).filter
            (fun component => component.getType == "file" && jsEndsWith component.getName ext)
    ∧ ∀ r ∈ (FSComponent.dir b nm cs).findByExtension ext,
        r.getType = "file" ∧ jsEndsWith r.getName ext = true := by
  refine ⟨FSComponent.getSize_dir b nm cs, FSComponent.getSize_eq_leafFiles_sum _,
    FSComponent.find_ext_eq ext _, ?_⟩
  intro r hr
  rw [FSComponent.findByExtension, FSComponent.find_ext_eq ext] at hr
  have h := (List.mem_filter.mp hr).2
  simp only [Bool.and_eq_true, beq_iff_eq] at h
  exact h

/-- Witness for C2 at a concrete two-level tree and the suffix ".txt". -/
theorem c2_directory_size_and_findByExtension_witness :
    FSComponent.getType (.file "b.txt" 3) = "file"
    ∧ jsEndsWith (FSComponent.getName (.file "b.txt" 3)) ".txt" = true := by
  have h := (c2_directory_size_and_findByExtension false "root"
      [FSComponent.file "a.jpg" 2,
       FSComponent.dir false "sub" [FSComponent.file "b.txt" 3]] ".txt").2.2.2
  have hcalc : (FSComponent.dir false "root"
      [FSComponent.file "a.jpg" 2,
       FSComponent.dir false "sub" [FSComponent.file "b.txt" 3]]).findByExtension ".txt"
      = [FSComponent.file "b.txt" 3] := by
    simp +decide [FSComponent.findByExtension, FSComponent.find, FSComponent.findInChildren,
      FSComponent.getType, FSComponent.getName]
  exact h (FSComponent.file "b.txt" 3) (hcalc ▸ List.mem_singleton.mpr rfl)

end Composite

namespace Decorator

/-- Embedding of the coffee decorator chain: a SimpleCoffee base wrapped by
any nesting of the four concrete decorators.  Each constructor of the chain
stores the wrapped coffee, exactly as each decorator stores this.coffee. -/
inductive Coffee where
  | simpleCoffee
  | milk (coffee : Coffee)
  | sugar (coffee : Coffee)
  | whippedCream (coffee : Coffee)
  | vanillaSyrup (coffee : Coffee)

/-- SimpleCoffee.getCost returns 2.0; each decorator returns the wrapped
coffee's cost plus its fixed increment (0.5 milk, 0.2 sugar, 0.7 whipped
cream, 0.6 vanilla syrup). -/
def Coffee.getCost : Coffee → ℚ
  | .simpleCoffee => 2.0
  | .milk c => c.getCost + 0.5
  | .sugar c => c.getCost + 0.2
  | .whippedCream c => c.getCost + 0.7
  | .vanillaSyrup c => c.getCost + 0.6

/-- SimpleCoffee.getDescription returns "Simple coffee"; each decorator
appends its suffix to the wrapped coffee's description. -/
def Coffee.getDescription : Coffee → String
  | .simpleCoffee => "Simple coffee"
  | .milk c => c.getDescription ++ ", with milk"
  | .sugar c => c.getDescription ++ ", with sugar"
  | .whippedCream c => c.getDescription ++ ", with whipped cream"
  | .vanillaSyrup c => c.getDescription ++ ", with vanilla syrup"

/-- One of the four concrete decorator classes. -/
inductive Dec where
  | milk
  | sugar
  | whippedCream
  | vanillaSyrup

/-- Applying a decorator constructor around an existing coffee. -/
def Dec.wrap : Dec → Coffee → Coffee
  | .milk, c => .milk c
  | .sugar, c => .sugar c
  | .whippedCream, c => .whippedCream c
  | .vanillaSyrup, c => .vanillaSyrup c

/-- The fixed cost increment of each decorator, read off the source. -/
def Dec.cost : Dec → ℚ
  | .milk => 0.5
  | .sugar => 0.2
  | .whippedCream => 0.7
  | .vanillaSyrup => 0.6

/-- The description suffix of each decorator, read off the source. -/
def Dec.text : Dec → String
  | .milk => ", with milk"
  | .sugar => ", with sugar"
  | .whippedCream => ", with whipped cream"
  | .vanillaSyrup => ", with vanilla syrup"

/-- A chain of decorators applied around a base, innermost first. -/
def applyChain (ds : List Dec) (c : Coffee) : Coffee :=
  ds.foldl (fun acc d => d.wrap acc) c

/-- Concatenation of the suffixes of a decorator list, in order. -/
def suffixConcat : List Dec → String
  | [] => ""
  | d :: ds => d.text ++ suffixConcat ds

theorem Dec.wrap_cost (d : Dec) (c : Coffee) :
    (d.wrap c).getCost = c.getCost + d.cost := by
  cases d <;> rfl

theorem Dec.wrap_description (d : Dec) (c : Coffee) :
    (d.wrap c).getDescription = c.getDescription ++ d.text := by
  cases d <;> rfl

theorem applyChain_cost (ds : List Dec) (c : Coffee) :
    (applyChain ds c).getCost = c.getCost + (ds.map Dec.cost).sum := by
  induction ds generalizing c with
  | nil => simp [applyChain]
  | cons d ds ih =>
      simp only [applyChain, List.foldl_cons, List.map_cons, List.sum_cons]
      rw [show (List.foldl (fun acc d => d.wrap acc) (d.wrap c) ds) = applyChain ds (d.wrap c)
            from rfl,
        ih, Dec.wrap_cost]
      ring

theorem applyChain_description (ds : List Dec) (c : Coffee) :
    (applyChain ds c).getDescription = c.getDescription ++ suffixConcat ds := by
  induction ds generalizing c with
  | nil => simp [applyChain, suffixConcat]
  | cons d ds ih =>
      simp only [applyChain, List.foldl_cons, suffixConcat]
      rw [show (List.foldl (fun acc d => d.wrap acc) (d.wrap c) ds) = applyChain ds (d.wrap c)
            from rfl,
        ih, Dec.wrap_description, String.append_assoc]

/-- C3: for any chain of the four coffee decorators, in any combination and
order, applied around a SimpleCoffee base, the outermost getCost equals the
base cost 2.0 plus the sum of the decorators' fixed increments, and the
outermost getDescription equals the base description with each decorator's
suffix appended in application order, innermost first. -/
theorem c3_decorator_cost_and_description (ds : List Dec) :
    (applyChain ds .simpleCoffee).getCost = 2.0 + (ds.map Dec.cost).sum
    ∧ (applyChain ds .simpleCoffee).getDescription = "Simple coffee" ++ suffixConcat ds := by
  refine ⟨?_, ?_⟩
  · rw [applyChain_cost]; rfl
  · rw [applyChain_description]; rfl

end Decorator

namespace Singleton

/-- The module-level state of singleton.js: the static field
Singleton.instance (holding the identity of the unique instance when set) and
an allocation counter assigning a fresh identity to each evaluation of a new
expression, which models JavaScript reference identity. -/
structure SingletonState where
  inst : Option Nat
  nextId : Nat

/-- Direct construction new Singleton(): throws when the static field is
already set; otherwise produces a fresh object.  The constructor itself does
not assign the static field. -/
def constructorNew (s : SingletonState) : Except String (Nat × SingletonState) :=
  if s.inst.isSome then
    .error "Singleton instance already exists. Use getInstance() instead."
  else
    .ok (s.nextId, { s with nextId := s.nextId + 1 })

/-- Singleton.getInstance: when the static field is unset it runs
new Singleton() (which succeeds, since the field is unset), stores the fresh
instance in the static field and returns it; otherwise it returns the stored
instance. -/
def getInstance (s : SingletonState) : Nat × SingletonState :=
  match s.inst with
  | some i => (i, s)
  | none => (s.nextId, { inst := some s.nextId, nextId := s.nextId + 1 })

/-- C5: two successive getInstance calls return the identical (reference
equal) instance, and after the first getInstance call any direct construction
via new Singleton() throws. -/
theorem c5_singleton_unique_and_guarded (s : SingletonState) :
    (getInstance (getInstance s).2).1 = (getInstance s).1
    ∧ constructorNew (getInstance s).2
        = .error "Singleton instance already exists. Use getInstance() instead." := by
  cases h : s.inst with
  | some i => simp [getInstance, constructorNew, h]
  | none => simp [getInstance, constructorNew, h]

end Singleton

namespace Proxy

/-- The dummy data produced by DatabaseSource.getData: a record carrying the
query it answers.  The creation timestamp and the fixed three sample rows are
the same for every query and are omitted. -/
structure QueryResult where
  query : String
deriving DecidableEq

/-- The real subject of proxy.js: a database handle with a connection flag
that connect() sets.  The connection timestamp only feeds logging and is
omitted. -/
structure DatabaseSource where
  connectionString : String
  isConnected : Bool
deriving DecidableEq

/-- Constructor of DatabaseSource: starts disconnected. -/
def DatabaseSource.new (connectionString : String) : DatabaseSource :=
  { connectionString := connectionString, isConnected := false }

/-- DatabaseSource.connect sets the connection flag. -/
def DatabaseSource.connect (db : DatabaseSource) : DatabaseSource :=
  { db with isConnected := true }

/-- DatabaseSource.getData: connects when not yet connected, then returns the
dummy result for the query. -/
def DatabaseSource.getData (db : DatabaseSource) (query : String) :
    QueryResult × DatabaseSource :=
  let db := if db.isConnected = false then db.connect else db
  ({ query := query }, db)

/-- DatabaseSource.saveData: connects when not yet connected, then reports
success.  The saved payload is an opaque token, and the source's
typeof-object validation has no counterpart on it. -/
def DatabaseSource.saveData (db : DatabaseSource) (_data : String) :
    Bool × DatabaseSource :=
  let db := if db.isConnected = false then db.connect else db
  (true, db)

/-- The proxy of proxy.js: access level, lazily created real database, and
the query cache (a key-to-value map, modelled as an association list with
distinct keys).  The cacheHits and cacheMisses counters are kept; lastAccess
only stores a timestamp and is omitted. -/
structure DatabaseProxy where
  connectionString : String
  accessLevel : String
  realDatabase : Option DatabaseSource
  cache : List (String × QueryResult)
  cacheHits : Nat
  cacheMisses : Nat
deriving DecidableEq

/-- Constructor of DatabaseProxy: no real database yet, empty cache. -/
def DatabaseProxy.new (connectionString accessLevel : String) : DatabaseProxy :=
  { connectionString := connectionString, accessLevel := accessLevel,
    realDatabase := none, cache := [], cacheHits := 0, cacheMisses := 0 }

/-- DatabaseProxy.checkAccess: denies exactly a "write" operation when the
proxy's accessLevel is not "write". -/
def DatabaseProxy.checkAccess (p : DatabaseProxy) (operation : String) : Bool :=
  if operation = "write" ∧ p.accessLevel ≠ "write" then false else true

/-- DatabaseProxy.getRealDatabase: creates the real database on first use. -/
def DatabaseProxy.getRealDatabase (p : DatabaseProxy) :
    DatabaseSource × DatabaseProxy :=
  match p.realDatabase with
  | some db => (db, p)
  | none =>
      let db := DatabaseSource.new p.connectionString
      (db, { p with realDatabase := some db })

/-- DatabaseProxy.getData: throws when checkAccess("read") fails; on a cache
hit returns the cached value, counting a hit; on a miss counts a miss,
forwards to the (lazily created) real database and caches the result.  The
pair returns the thrown-or-returned value together with the proxy state after
the call. -/
def DatabaseProxy.getData (p : DatabaseProxy) (query : String) :
    Except String QueryResult × DatabaseProxy :=
  if p.checkAccess "read" = false then
    (.error "Access denied: Read operation not allowed.", p)
  else
    match p.cache.lookup query with
    | some r => (.ok r, { p with cacheHits := p.cacheHits + 1 })
    | none =>
        let p := { p with cacheMisses := p.cacheMisses + 1 }
        let (db, p) := p.getRealDatabase
        let (r, db) := db.getData query
        (.ok r, { p with realDatabase := some db, cache := (query, r) :: p.cache })

/-- DatabaseProxy.saveData: throws when checkAccess("write") fails, before
touching any state; otherwise forwards to the (lazily created) real database
and then clears the whole cache. -/
def DatabaseProxy.saveData (p : DatabaseProxy) (data : String) :
    Except String Bool × DatabaseProxy :=
  if p.checkAccess "write" = false then
    (.error "Access denied: Write operation not allowed with current access level.", p)
  else
    let (db, p) := p.getRealDatabase
    let (result, db) := db.saveData data
    (.ok result, { p with realDatabase := some db, cache := [] })

/-- C8: a successful saveData (write access level) clears the whole cache, so
the next getData for any query is a cache miss; a saveData on a proxy whose
accessLevel is not "write" throws the access-denied error and leaves the
proxy, its cache included, unchanged. -/
theorem c8_saveData_invalidates_cache (p : DatabaseProxy) (data : String) :
    (p.accessLevel = "write" →
      (p.saveData data).1 = .ok true
      ∧ (p.saveData data).2.cache = []
      ∧ ∀ query, ((p.saveData data).2.cache.lookup query) = none
          ∧ ((p.saveData data).2.getData query).2.cacheMisses
              = (p.saveData data).2.cacheMisses + 1)
    ∧ (p.accessLevel ≠ "write" →
      (p.saveData data)
        = (.error "Access denied: Write operation not allowed with current access level.", p)) := by
  constructor
  · intro hw
    have hca : p.checkAccess "write" = true := by
      simp [DatabaseProxy.checkAccess, hw]
    refine ⟨?_, ?_, ?_⟩
    · simp [DatabaseProxy.saveData, hca, DatabaseProxy.getRealDatabase,
        DatabaseSource.saveData]
    · simp [DatabaseProxy.saveData, hca, DatabaseProxy.getRealDatabase,
        DatabaseSource.saveData]
    · intro query
      have hcache : (p.saveData data).2.cache = [] := by
        simp [DatabaseProxy.saveData, hca, DatabaseProxy.getRealDatabase,
          DatabaseSource.saveData]
      refine ⟨by simp [hcache], ?_⟩
      have hread : (p.saveData data).2.checkAccess "read" = true := by
        simp [DatabaseProxy.checkAccess]
      simp [DatabaseProxy.getData, hread, hcache, DatabaseProxy.getRealDatabase,
        DatabaseSource.getData]
      cases hdb : (p.saveData data).2.realDatabase <;> simp
  · intro hw
    have hca : p.checkAccess "write" = false := by
      simp [DatabaseProxy.checkAccess, hw]
    simp [DatabaseProxy.saveData, hca]

/-- Witness for C8: a concrete write proxy and a concrete read-only proxy. -/
theorem c8_saveData_invalidates_cache_witness :
    ((DatabaseProxy.new "db://example.com/mydb" "write").saveData "rec").1 = .ok true
    ∧ ((DatabaseProxy.new "db://example.com/mydb" "read").saveData "rec")
        = (.error "Access denied: Write operation not allowed with current access level.",
           DatabaseProxy.new "db://example.com/mydb" "read") := by
  constructor
  · exact ((c8_saveData_invalidates_cache
      (DatabaseProxy.new "db://example.com/mydb" "write") "rec").1 rfl).1
  · exact (c8_saveData_invalidates_cache
      (DatabaseProxy.new "db://example.com/mydb" "read") "rec").2 (by decide)

/-- C9: checkAccess("read") returns true for every access level, so the
access-denied throw at the start of getData is unreachable: getData never
returns the access-denied error, for any proxy state and any query. -/
theorem c9_getData_access_check_unreachable (p : DatabaseProxy) (query : String) :
    p.checkAccess "read" = true ∧ ((p.getData query).1.isOk = true) := by
  have hread : p.checkAccess "read" = true := by
    simp [DatabaseProxy.checkAccess]
  refine ⟨hread, ?_⟩
  simp only [DatabaseProxy.getData, hread]
  simp only [Bool.true_eq_false, if_false]
  cases hq : p.cache.lookup query <;> rfl

end Proxy

namespace Observer

/-- The WeatherStation subject: a list of observer references, modelled as
identity tokens since attach/detach compare observers by reference, plus the
three measurements. -/
structure WeatherStation where
  observers : List Nat
  temperature : ℚ
  humidity : ℚ
  pressure : ℚ

/-- Constructor: no observers, all measurements 0. -/
def WeatherStation.new : WeatherStation :=
  { observers := [], temperature := 0, humidity := 0, pressure := 0 }

/-- WeatherStation.attach: when the observer already is in the list, nothing
is added; otherwise it is pushed at the end. -/
def WeatherStation.attach (ws : WeatherStation) (o : Nat) : WeatherStation :=
  if o ∈ ws.observers then ws
  else { ws with observers := ws.observers ++ [o] }

/-- WeatherStation.detach: when the observer is absent, nothing changes;
otherwise splice removes the first occurrence. -/
def WeatherStation.detach (ws : WeatherStation) (o : Nat) : WeatherStation :=
  if o ∈ ws.observers then { ws with observers := ws.observers.erase o }
  else ws

/-- WeatherStation.notify: update is called once on each observer of the
list, in list order; the delivery sequence of one notify call. -/
def WeatherStation.notify (ws : WeatherStation) : List Nat :=
  ws.observers

/-- WeatherStation.setMeasurements: stores the measurements and notifies. -/
def WeatherStation.setMeasurements (ws : WeatherStation) (t h pr : ℚ) :
    WeatherStation × List Nat :=
  let ws := { ws with temperature := t, humidity := h, pressure := pr }
  (ws, ws.notify)

/-- An operation of the observer example's client code. -/
inductive WSOp where
  | attach (o : Nat)
  | detach (o : Nat)
  | setMeasurements (t h pr : ℚ)

/-- One step of the client code. -/
def WeatherStation.applyOp (ws : WeatherStation) : WSOp → WeatherStation
  | .attach o => ws.attach o
  | .detach o => ws.detach o
  | .setMeasurements t h pr => (ws.setMeasurements t h pr).1

/-- The station reached from the constructor by a sequence of operations. -/
def WeatherStation.run (ops : List WSOp) : WeatherStation :=
  ops.foldl WeatherStation.applyOp WeatherStation.new

theorem WeatherStation.attach_nodup (ws : WeatherStation) (o : Nat)
    (h : ws.observers.Nodup) : (ws.attach o).observers.Nodup := by
  by_cases hm : o ∈ ws.observers <;>
    simp [WeatherStation.attach, hm, List.nodup_append, h]

theorem WeatherStation.detach_nodup (ws : WeatherStation) (o : Nat)
    (h : ws.observers.Nodup) : (ws.detach o).observers.Nodup := by
  by_cases hm : o ∈ ws.observers <;>
    simp [WeatherStation.detach, hm, h, List.Nodup.erase o h]

theorem WeatherStation.run_nodup (ops : List WSOp) :
    (WeatherStation.run ops).observers.Nodup := by
  suffices h : ∀ ws : WeatherStation, ws.observers.Nodup →
      (ops.foldl WeatherStation.applyOp ws).observers.Nodup by
    exact h WeatherStation.new (by simp [WeatherStation.new])
  induction ops with
  | nil => intro ws h; simpa using h
  | cons op ops ih =>
      intro ws h
      simp only [List.foldl_cons]
      apply ih
      cases op with
      | attach o => exact WeatherStation.attach_nodup ws o h
      | detach o => exact WeatherStation.detach_nodup ws o h
      | setMeasurements t hu pr => simpa [WeatherStation.applyOp,
          WeatherStation.setMeasurements] using h

theorem WeatherStation.attach_attach (ws : WeatherStation) (o : Nat) :
    (ws.attach o).attach o = ws.attach o := by
  by_cases hm : o ∈ ws.observers <;>
    simp [WeatherStation.attach, hm]

/-- C4: on every station reachable by the client code, attaching an observer
that is already attached changes nothing, so repeated attach calls behave as
one; a notify call then delivers exactly one update to an attached observer;
detaching an observer removes it from subsequent deliveries while every other
observer keeps its deliveries unchanged. -/
theorem c4_observer_attach_detach_notify (ops : List WSOp) (o o' : Nat) :
    (o ∈ (WeatherStation.run ops).observers →
        (WeatherStation.run ops).attach o = WeatherStation.run ops)
    ∧ (∀ n, (fun ws => WeatherStation.attach ws o)^[n + 1] (WeatherStation.run ops)
          = (WeatherStation.run ops).attach o)
    ∧ (((WeatherStation.run ops).attach o).notify.count o = 1)
    ∧ (o ∉ ((WeatherStation.run ops).detach o).notify)
    ∧ (o' ≠ o → ((WeatherStation.run ops).detach o).notify.count o'
          = (WeatherStation.run ops).notify.count o') := by
  have hnd := WeatherStation.run_nodup ops
  refine ⟨?_, ?_, ?_, ?_, ?_⟩
  · intro hm
    simp [WeatherStation.attach, hm]
  · intro n
    induction n with
    | zero => simp
    | succ n ih =>
        rw [Function.iterate_succ_apply', ih, WeatherStation.attach_attach]
  · have hmem : o ∈ ((WeatherStation.run ops).attach o).observers := by
      by_cases hm : o ∈ (WeatherStation.run ops).observers <;>
        simp [WeatherStation.attach, hm]
    have hnd' := WeatherStation.attach_nodup (WeatherStation.run ops) o hnd
    simpa [WeatherStation.notify] using
      List.count_eq_one_of_mem hnd' hmem
  · by_cases hm : o ∈ (WeatherStation.run ops).observers
    · simp only [WeatherStation.detach, hm, if_true, WeatherStation.notify]
      exact List.Nodup.not_mem_erase hnd
    · simp [WeatherStation.detach, hm, WeatherStation.notify]
  · intro hne
    by_cases hm : o ∈ (WeatherStation.run ops).observers
    · simp only [WeatherStation.detach, hm, if_true, WeatherStation.notify]
      exact List.count_erase_of_ne hne _
    · simp [WeatherStation.detach, hm]

/-- Witness for C4 at a two-observer station: observer 1 attached twice then
detached while observer 2 keeps receiving updates. -/
theorem c4_observer_attach_detach_notify_witness :
    (0 : Nat) ≠ 1
    ∧ ((WeatherStation.run [.attach 1, .attach 1, .attach 0]).detach 1).notify.count 0
        = (WeatherStation.run [.attach 1, .attach 1, .attach 0]).notify.count 0 := by
  exact ⟨by decide,
    (c4_observer_attach_detach_notify [.attach 1, .attach 1, .attach 0] 1 0).2.2.2.2
      (by decide)⟩

end Observer

namespace Bridge

/-- The TV device of the bridge example: brand, power flag, volume, channel
and channel bound, as initialised by the constructor. -/
structure TV where
  brand : String
  isOn : Bool
  volume : ℚ
  channel : Int
  maxChannels : Int

/-- Constructor of TV: off, volume 30, channel 1, at most 100 channels. -/
def TV.new (brand : String) : TV :=
  { brand := brand, isOn := false, volume := 30, channel := 1, maxChannels := 100 }

/-- TV.turnOn sets the power flag. -/
def TV.turnOn (tv : TV) : TV := { tv with isOn := true }

/-- TV.turnOff clears the power flag. -/
def TV.turnOff (tv : TV) : TV := { tv with isOn := false }

/-- TV.setVolume: a no-op while off; otherwise the argument is clamped to
the range 0 to 100. -/
def TV.setVolume (tv : TV) (percent : ℚ) : TV :=
  if tv.isOn = false then tv
  else { tv with volume := max 0 (min 100 percent) }

/-- TV.setChannel: a no-op while off; a channel between 1 and maxChannels is
stored, anything else only logs. -/
def TV.setChannel (tv : TV) (channel : Int) : TV :=
  if tv.isOn = false then tv
  else if 0 < channel ∧ channel ≤ tv.maxChannels then { tv with channel := channel }
  else tv

/-- The Radio device: power flag, volume, frequency and band. -/
structure Radio where
  brand : String
  isOn : Bool
  volume : ℚ
  channel : ℚ
  isFM : Bool

/-- Constructor of Radio: off, volume 20, 87.5 MHz FM. -/
def Radio.new (brand : String) : Radio :=
  { brand := brand, isOn := false, volume := 20, channel := 87.5, isFM := true }

/-- Radio.turnOn sets the power flag. -/
def Radio.turnOn (r : Radio) : Radio := { r with isOn := true }

/-- Radio.turnOff clears the power flag. -/
def Radio.turnOff (r : Radio) : Radio := { r with isOn := false }

/-- Radio.setVolume: a no-op while off; otherwise clamped to 0 to 100. -/
def Radio.setVolume (r : Radio) (percent : ℚ) : Radio :=
  if r.isOn = false then r
  else { r with volume := max 0 (min 100 percent) }

/-- Radio.setChannel: a no-op while off; on FM only 87.5 to 108.0 MHz is
accepted, on AM only 540 to 1600 kHz; anything else only logs. -/
def Radio.setChannel (r : Radio) (channel : ℚ) : Radio :=
  if r.isOn = false then r
  else if r.isFM then
    if 87.5 ≤ channel ∧ channel ≤ 108.0 then { r with channel := channel } else r
  else
    if 540 ≤ channel ∧ channel ≤ 1600 then { r with channel := channel } else r

/-- Radio.toggleBand: a no-op while off; otherwise flips the band and resets
the frequency to the band default. -/
def Radio.toggleBand (r : Radio) : Radio :=
  if r.isOn = false then r
  else
    let fm := !r.isFM
    { r with isFM := fm, channel := if fm then 87.5 else 1000 }

/-- The SmartSpeaker device: power flag, volume, current app and the fixed
app list ("setChannel" selects an app by index). -/
structure SmartSpeaker where
  brand : String
  isOn : Bool
  volume : ℚ
  currentApp : String
  availableApps : List String

/-- Constructor of SmartSpeaker: off, volume 40, no app running, five
available apps. -/
def SmartSpeaker.new (brand : String) : SmartSpeaker :=
  { brand := brand, isOn := false, volume := 40, currentApp := "None",
    availableApps := ["Music", "Podcast", "News", "Weather", "Home Control"] }

/-- SmartSpeaker.turnOn sets the power flag. -/
def SmartSpeaker.turnOn (sp : SmartSpeaker) : SmartSpeaker := { sp with isOn := true }

/-- SmartSpeaker.turnOff clears the power flag. -/
def SmartSpeaker.turnOff (sp : SmartSpeaker) : SmartSpeaker := { sp with isOn := false }

/-- SmartSpeaker.setVolume: a no-op while off; otherwise clamped to
0 to 100. -/
def SmartSpeaker.setVolume (sp : SmartSpeaker) (percent : ℚ) : SmartSpeaker :=
  if sp.isOn = false then sp
  else { sp with volume := max 0 (min 100 percent) }

/-- SmartSpeaker.setChannel: a no-op while off; an index inside the app list
selects that app, anything else only logs. -/
def SmartSpeaker.setChannel (sp : SmartSpeaker) (appIndex : Int) : SmartSpeaker :=
  if sp.isOn = false then sp
  else if 0 ≤ appIndex ∧ appIndex < sp.availableApps.length then
    { sp with currentApp := sp.availableApps.getD appIndex.toNat sp.currentApp }
  else sp

/-- An operation on a TV with a numeric argument, plus the power toggles. -/
inductive TVOp where
  | turnOn
  | turnOff
  | setVolume (percent : ℚ)
  | setChannel (channel : Int)

/-- One client step on a TV. -/
def TV.applyOp (tv : TV) : TVOp → TV
  | .turnOn => tv.turnOn
  | .turnOff => tv.turnOff
  | .setVolume p => tv.setVolume p
  | .setChannel c => tv.setChannel c

/-- An operation on a Radio. -/
inductive RadioOp where
  | turnOn
  | turnOff
  | setVolume (percent : ℚ)
  | setChannel (channel : ℚ)
  | toggleBand

/-- One client step on a Radio. -/
def Radio.applyOp (r : Radio) : RadioOp → Radio
  | .turnOn => r.turnOn
  | .turnOff => r.turnOff
  | .setVolume p => r.setVolume p
  | .setChannel c => r.setChannel c
  | .toggleBand => r.toggleBand

/-- An operation on a SmartSpeaker. -/
inductive SpeakerOp where
  | turnOn
  | turnOff
  | setVolume (percent : ℚ)
  | setChannel (appIndex : Int)

/-- One client step on a SmartSpeaker. -/
def SmartSpeaker.applyOp (sp : SmartSpeaker) : SpeakerOp → SmartSpeaker
  | .turnOn => sp.turnOn
  | .turnOff => sp.turnOff
  | .setVolume p => sp.setVolume p
  | .setChannel c => sp.setChannel c

theorem clamp_mem (p : ℚ) : 0 ≤ max 0 (min 100 p) ∧ max 0 (min 100 p) ≤ 100 :=
  ⟨le_max_left _ _, max_le (by norm_num) (min_le_left _ _)⟩

theorem TV.tv_volume_step (tv : TV) (h : 0 ≤ tv.volume ∧ tv.volume ≤ 100)
    (op : TVOp) : 0 ≤ (tv.applyOp op).volume ∧ (tv.applyOp op).volume ≤ 100 := by
  cases op with
  | turnOn => simpa [TV.applyOp, TV.turnOn] using h
  | turnOff => simpa [TV.applyOp, TV.turnOff] using h
  | setVolume p =>
      by_cases hOn : tv.isOn = false <;>
        simp [TV.applyOp, TV.setVolume, hOn, h, clamp_mem p]
  | setChannel c =>
      by_cases hOn : tv.isOn = false
      · simpa [TV.applyOp, TV.setChannel, hOn] using h
      · by_cases hc : 0 < c ∧ c ≤ tv.maxChannels <;>
          simpa [TV.applyOp, TV.setChannel, hOn, hc] using h

theorem Radio.radio_volume_step (r : Radio) (h : 0 ≤ r.volume ∧ r.volume ≤ 100)
    (op : RadioOp) : 0 ≤ (r.applyOp op).volume ∧ (r.applyOp op).volume ≤ 100 := by
  cases op with
  | turnOn => simpa [Radio.applyOp, Radio.turnOn] using h
  | turnOff => simpa [Radio.applyOp, Radio.turnOff] using h
  | setVolume p =>
      by_cases hOn : r.isOn = false <;>
        simp [Radio.applyOp, Radio.setVolume, hOn, h, clamp_mem p]
  | setChannel c =>
      by_cases hOn : r.isOn = false
      · simpa [Radio.applyOp, Radio.setChannel, hOn] using h
      · by_cases hfm : r.isFM
        · by_cases hc : (87.5 : ℚ) ≤ c ∧ c ≤ 108.0 <;>
            simpa [Radio.applyOp, Radio.setChannel, hOn, hfm, hc] using h
        · by_cases hc : (540 : ℚ) ≤ c ∧ c ≤ 1600 <;>
            simpa [Radio.applyOp, Radio.setChannel, hOn, hfm, hc] using h
  | toggleBand =>
      by_cases hOn : r.isOn = false <;>
        simpa [Radio.applyOp, Radio.toggleBand, hOn] using h

theorem SmartSpeaker.speaker_volume_step (sp : SmartSpeaker)
    (h : 0 ≤ sp.volume ∧ sp.volume ≤ 100) (op : SpeakerOp) :
    0 ≤ (sp.applyOp op).volume ∧ (sp.applyOp op).volume ≤ 100 := by
  cases op with
  | turnOn => simpa [SmartSpeaker.applyOp, SmartSpeaker.turnOn] using h
  | turnOff => simpa [SmartSpeaker.applyOp, SmartSpeaker.turnOff] using h
  | setVolume p =>
      by_cases hOn : sp.isOn = false <;>
        simp [SmartSpeaker.applyOp, SmartSpeaker.setVolume, hOn, h, clamp_mem p]
  | setChannel c =>
      by_cases hOn : sp.isOn = false
      · simpa [SmartSpeaker.applyOp, SmartSpeaker.setChannel, hOn] using h
      · by_cases hc : 0 ≤ c ∧ c < (sp.availableApps.length : Int) <;>
          simpa [SmartSpeaker.applyOp, SmartSpeaker.setChannel, hOn, hc] using h

/-- C10: for each of the three devices, for every sequence of operations the
volume stays in the range 0 to 100 (setVolume clamps while on, and every
other operation leaves the volume alone), and while a device is off both
setVolume and setChannel leave the whole device state, volume and channel or
app included, unchanged. -/
theorem c10_device_volume_range_and_off_noop (brand : String) :
    (∀ ops : List TVOp, 0 ≤ (ops.foldl TV.applyOp (TV.new brand)).volume
        ∧ (ops.foldl TV.applyOp (TV.new brand)).volume ≤ 100)
    ∧ (∀ ops : List RadioOp, 0 ≤ (ops.foldl Radio.applyOp (Radio.new brand)).volume
        ∧ (ops.foldl Radio.applyOp (Radio.new brand)).volume ≤ 100)
    ∧ (∀ ops : List SpeakerOp,
        0 ≤ (ops.foldl SmartSpeaker.applyOp (SmartSpeaker.new brand)).volume
        ∧ (ops.foldl SmartSpeaker.applyOp (SmartSpeaker.new brand)).volume ≤ 100)
    ∧ (∀ (tv : TV) (p : ℚ) (c : Int), tv.isOn = false →
        tv.setVolume p = tv ∧ tv.setChannel c = tv)
    ∧ (∀ (r : Radio) (p c : ℚ), r.isOn = false →
        r.setVolume p = r ∧ r.setChannel c = r)
    ∧ (∀ (sp : SmartSpeaker) (p : ℚ) (c : Int), sp.isOn = false →
        sp.setVolume p = sp ∧ sp.setChannel c = sp) := by
  refine ⟨?_, ?_, ?_, ?_, ?_, ?_⟩
  · intro ops
    suffices h : ∀ tv : TV, 0 ≤ tv.volume ∧ tv.volume ≤ 100 →
        0 ≤ (ops.foldl TV.applyOp tv).volume ∧ (ops.foldl TV.applyOp tv).volume ≤ 100 by
      exact h (TV.new brand) (by norm_num [TV.new])
    induction ops with
    | nil => intro tv h; simpa using h
    | cons op ops ih =>
        intro tv h
        exact ih (tv.applyOp op) (TV.tv_volume_step tv h op)
  · intro ops
    suffices h : ∀ r : Radio, 0 ≤ r.volume ∧ r.volume ≤ 100 →
        0 ≤ (ops.foldl Radio.applyOp r).volume
          ∧ (ops.foldl Radio.applyOp r).volume ≤ 100 by
      exact h (Radio.new brand) (by norm_num [Radio.new])
    induction ops with
    | nil => intro r h; simpa using h
    | cons op ops ih =>
        intro r h
        exact ih (r.applyOp op) (Radio.radio_volume_step r h op)
  · intro ops
    suffices h : ∀ sp : SmartSpeaker, 0 ≤ sp.volume ∧ sp.volume ≤ 100 →
        0 ≤ (ops.foldl SmartSpeaker.applyOp sp).volume
          ∧ (ops.foldl SmartSpeaker.applyOp sp).volume ≤ 100 by
      exact h (SmartSpeaker.new brand) (by norm_num [SmartSpeaker.new])
    induction ops with
    | nil => intro sp h; simpa using h
    | cons op ops ih =>
        intro sp h
        exact ih (sp.applyOp op) (SmartSpeaker.speaker_volume_step sp h op)
  · intro tv p c hOff
    exact ⟨by simp [TV.setVolume, hOff], by simp [TV.setChannel, hOff]⟩
  · intro r p c hOff
    exact ⟨by simp [Radio.setVolume, hOff], by simp [Radio.setChannel, hOff]⟩
  · intro sp p c hOff
    exact ⟨by simp [SmartSpeaker.setVolume, hOff], by simp [SmartSpeaker.setChannel, hOff]⟩

/-- Witness for C10: an off TV ignores setVolume 250, and a run that turns a
TV on and sets volume 250 ends inside the range. -/
theorem c10_device_volume_range_and_off_noop_witness :
    (0 ≤ ([TVOp.turnOn, TVOp.setVolume 250].foldl TV.applyOp (TV.new "Sony")).volume
      ∧ ([TVOp.turnOn, TVOp.setVolume 250].foldl TV.applyOp (TV.new "Sony")).volume ≤ 100)
    ∧ (TV.new "Sony").setVolume 250 = TV.new "Sony" := by
  refine ⟨(c10_device_volume_range_and_off_noop "Sony").1 _, ?_⟩
  exact (((c10_device_volume_range_and_off_noop "Sony").2.2.2.1
    (TV.new "Sony") 250 7) rfl).1

end Bridge

namespace Memento

/-- The selection object of the text editor, a start and an end position.
The JavaScript field named end is called endPos here. -/
structure Selection where
  startPos : Nat
  endPos : Nat
deriving DecidableEq

/-- The TextEditor originator: its five pieces of state, as initialised by
the constructor. -/
structure TextEditor where
  content : String
  cursorPosition : Nat
  selection : Selection
  fontName : String
  fontSize : ℚ
deriving DecidableEq

/-- The immutable snapshot taken by TextEditor.save.  The timestamp records
the creation instant (new Date() is modelled by an external clock value). -/
structure TextEditorMemento where
  content : String
  cursorPosition : Nat
  selection : Selection
  fontName : String
  fontSize : ℚ
  timestamp : Nat
deriving DecidableEq

/-- TextEditor.save: copies the five state fields into a fresh memento. -/
def TextEditor.save (e : TextEditor) (now : Nat) : TextEditorMemento :=
  { content := e.content, cursorPosition := e.cursorPosition,
    selection := e.selection, fontName := e.fontName, fontSize := e.fontSize,
    timestamp := now }

/-- TextEditorMemento.getState: the stored editor state. -/
def TextEditorMemento.getState (m : TextEditorMemento) : TextEditor :=
  { content := m.content, cursorPosition := m.cursorPosition,
    selection := m.selection, fontName := m.fontName, fontSize := m.fontSize }

/-- TextEditor.restore: overwrites every state field of the editor with the
memento's stored state.  The instanceof validation always passes in this
typed embedding. -/
def TextEditor.restore (_e : TextEditor) (m : TextEditorMemento) : TextEditor :=
  m.getState

/-- The EditorHistory caretaker: the ordered list of stored mementos and the
cursor, -1 at construction. -/
structure EditorHistory where
  states : List TextEditorMemento
  currentStateIndex : Int
deriving DecidableEq

/-- Constructor of EditorHistory. -/
def EditorHistory.new : EditorHistory :=
  { states := [], currentStateIndex := -1 }

/-- EditorHistory.push: when undos have happened, the future states after
the cursor are sliced away first; the memento is appended and the cursor
moves to the new last index. -/
def EditorHistory.push (h : EditorHistory) (m : TextEditorMemento) : EditorHistory :=
  let states :=
    if h.currentStateIndex < (h.states.length : Int) - 1 then
      h.states.take (h.currentStateIndex + 1).toNat
    else h.states
  let states := states ++ [m]
  { states := states, currentStateIndex := (states.length : Int) - 1 }

/-- EditorHistory.undo: when the cursor is past index 0 it moves back one
step and the memento there is returned; otherwise null is returned and
nothing changes (and the caller restores nothing). -/
def EditorHistory.undo (h : EditorHistory) : Option TextEditorMemento × EditorHistory :=
  if 0 < h.currentStateIndex then
    let i := h.currentStateIndex - 1
    (h.states[i.toNat]?, { h with currentStateIndex := i })
  else (none, h)

/-- EditorHistory.redo: when the cursor is before the last index it moves
forward one step and the memento there is returned; otherwise null is
returned and nothing changes. -/
def EditorHistory.redo (h : EditorHistory) : Option TextEditorMemento × EditorHistory :=
  if h.currentStateIndex < (h.states.length : Int) - 1 then
    let i := h.currentStateIndex + 1
    (h.states[i.toNat]?, { h with currentStateIndex := i })
  else (none, h)

/-- EditorHistory.goToState: an index inside the stored states moves the
cursor there and returns the memento; any other index only logs and returns
null, leaving the history unchanged. -/
def EditorHistory.goToState (h : EditorHistory) (index : Int) :
    Option TextEditorMemento × EditorHistory :=
  if 0 ≤ index ∧ index < (h.states.length : Int) then
    (h.states[index.toNat]?, { h with currentStateIndex := index })
  else (none, h)

/-- EditorHistory.clear: empties the history. -/
def EditorHistory.clear (_h : EditorHistory) : EditorHistory :=
  { states := [], currentStateIndex := -1 }

/-- Pushing a sequence of saved states in order. -/
def EditorHistory.pushAll (h : EditorHistory) (ms : List TextEditorMemento) : EditorHistory :=
  ms.foldl EditorHistory.push h

/-- Calling undo n times, collecting the returned mementos in call order. -/
def EditorHistory.undoIter : Nat → EditorHistory → List (Option TextEditorMemento) × EditorHistory
  | 0, h => ([], h)
  | n + 1, h =>
      (h.undo.1 :: (EditorHistory.undoIter n h.undo.2).1,
        (EditorHistory.undoIter n h.undo.2).2)

/-- Calling redo n times, collecting the returned mementos in call order. -/
def EditorHistory.redoIter : Nat → EditorHistory → List (Option TextEditorMemento) × EditorHistory
  | 0, h => ([], h)
  | n + 1, h =>
      (h.redo.1 :: (EditorHistory.redoIter n h.redo.2).1,
        (EditorHistory.redoIter n h.redo.2).2)

/-- The GameCharacter originator of the second memento example. -/
structure GameCharacter where
  name : String
  level : Nat
  health : ℚ
  inventory : List String
  position : ℚ × ℚ
  skills : List String
deriving DecidableEq

/-- The memento of a GameCharacter.  On construction the label is derived
from the name and level; setLabel can overwrite it later. -/
structure GameCharacterMemento where
  name : String
  level : Nat
  health : ℚ
  inventory : List String
  position : ℚ × ℚ
  skills : List String
  timestamp : Nat
  label : String
deriving DecidableEq

/-- GameCharacter.save: copies the state into a fresh memento whose label is
"Save - name (Lvl level)". -/
def GameCharacter.save (ch : GameCharacter) (now : Nat) : GameCharacterMemento :=
  { name := ch.name, level := ch.level, health := ch.health,
    inventory := ch.inventory, position := ch.position, skills := ch.skills,
    timestamp := now,
    label := "Save - " ++ ch.name ++ " (Lvl " ++ toString ch.level ++ ")" }

/-- GameCharacterMemento.setLabel: overwrites the label field of an already
constructed memento. -/
def GameCharacterMemento.setLabel (m : GameCharacterMemento) (label : String) :
    GameCharacterMemento :=
  { m with label := label }

/-- The SaveManager caretaker: character name mapped to the list of saves. -/
structure SaveManager where
  savedGames : List (String × List GameCharacterMemento)
deriving DecidableEq

/-- Constructor of SaveManager. -/
def SaveManager.new : SaveManager := { savedGames := [] }

/-- Map.set: replaces the value at an existing key, otherwise appends. -/
def mapSet {α : Type} (m : List (String × α)) (k : String) (v : α) :
    List (String × α) :=
  match m with
  | [] => [(k, v)]
  | (k', v') :: rest =>
      if k' = k then (k, v) :: rest else (k', v') :: mapSet rest k v

/-- SaveManager.saveCharacter: takes character.save(), sets the custom label
on the memento when one is provided, and appends the memento to the
character's save list. -/
def SaveManager.saveCharacter (mgr : SaveManager) (ch : GameCharacter)
    (label : Option String) (now : Nat) : SaveManager :=
  let memento := ch.save now
  let memento := match label with
    | some l => memento.setLabel l
    | none => memento
  let saves := (mgr.savedGames.lookup ch.name).getD []
  { savedGames := mapSet mgr.savedGames ch.name (saves ++ [memento]) }

theorem EditorHistory.push_at_end (ss : List TextEditorMemento) (m : TextEditorMemento) :
    EditorHistory.push ⟨ss, (ss.length : Int) - 1⟩ m
      = ⟨ss ++ [m], ((ss ++ [m]).length : Int) - 1⟩ := by
  simp only [EditorHistory.push, lt_self_iff_false, if_false]

theorem EditorHistory.pushAll_spec (ms ss : List TextEditorMemento) :
    EditorHistory.pushAll ⟨ss, (ss.length : Int) - 1⟩ ms
      = ⟨ss ++ ms, ((ss ++ ms).length : Int) - 1⟩ := by
  induction ms generalizing ss with
  | nil => simp [EditorHistory.pushAll]
  | cons m ms ih =>
      simp only [EditorHistory.pushAll, List.foldl_cons]
      rw [EditorHistory.push_at_end]
      have h := ih (ss ++ [m])
      simp only [EditorHistory.pushAll] at h
      rw [h]
      simp

theorem EditorHistory.pushAll_new (ss : List TextEditorMemento) :
    EditorHistory.pushAll EditorHistory.new ss = ⟨ss, (ss.length : Int) - 1⟩ := by
  have h := EditorHistory.pushAll_spec ss []
  simpa [EditorHistory.new] using h

theorem EditorHistory.undo_at (ss : List TextEditorMemento) (j : Nat) :
    EditorHistory.undo ⟨ss, ((j + 1 : Nat) : Int)⟩ = (ss[j]?, ⟨ss, (j : Int)⟩) := by
  have h0 : (0 : Int) < ((j + 1 : Nat) : Int) := by exact_mod_cast Nat.succ_pos j
  have h1 : (((j + 1 : Nat) : Int) - 1) = (j : Int) := by push_cast; ring
  rw [EditorHistory.undo]
  rw [if_pos h0]
  simp [h1]

theorem EditorHistory.redo_at (ss : List TextEditorMemento) (j : Nat)
    (hj : j + 1 < ss.length) :
    EditorHistory.redo ⟨ss, (j : Int)⟩ = (ss[j + 1]?, ⟨ss, ((j + 1 : Nat) : Int)⟩) := by
  have hcond : (j : Int) < (ss.length : Int) - 1 := by omega
  rw [EditorHistory.redo]
  rw [if_pos hcond]
  dsimp only
  have h2 : ((j : Int) + 1).toNat = j + 1 := by omega
  rw [h2]
  push_cast
  rfl

theorem EditorHistory.undoIter_spec (ss : List TextEditorMemento) :
    ∀ (n j : Nat), n ≤ j → j < ss.length →
    EditorHistory.undoIter n ⟨ss, (j : Int)⟩
      = ((((ss.take j).reverse).take n).map some, ⟨ss, ((j - n : Nat) : Int)⟩) := by
  intro n
  induction n with
  | zero => intro j _ _; simp [EditorHistory.undoIter]
  | succ n ih =>
      intro j hn hj
      obtain ⟨m, rfl⟩ : ∃ m, j = m + 1 := ⟨j - 1, by omega⟩
      have hm : m < ss.length := by omega
      have hget : ss[m]? = some ss[m] := List.getElem?_eq_getElem hm
      have htake : ss.take (m + 1) = ss.take m ++ [ss[m]] := by
        rw [List.take_succ, hget]
        rfl
      rw [EditorHistory.undoIter]
      rw [EditorHistory.undo_at ss m]
      simp only
      rw [ih m (by omega) (by omega)]
      rw [hget]
      have hs : (ss.take (m + 1)).reverse = ss[m] :: (ss.take m).reverse := by
        rw [htake]
        simp
      rw [hs, List.take_succ_cons, List.map_cons, Nat.succ_sub_succ]

theorem EditorHistory.redoIter_spec (ss : List TextEditorMemento) :
    ∀ (n j : Nat), j + n < ss.length →
    EditorHistory.redoIter n ⟨ss, (j : Int)⟩
      = (((ss.drop (j + 1)).take n).map some, ⟨ss, ((j + n : Nat) : Int)⟩) := by
  intro n
  induction n with
  | zero => intro j _; simp [EditorHistory.redoIter]
  | succ n ih =>
      intro j hj
      have hm : j + 1 < ss.length := by omega
      have hget : ss[j + 1]? = some ss[j + 1] := List.getElem?_eq_getElem hm
      have hdrop : ss.drop (j + 1) = ss[j + 1] :: ss.drop (j + 2) := by
        rw [List.drop_eq_getElem_cons hm]
      rw [EditorHistory.redoIter]
      rw [EditorHistory.redo_at ss j hm]
      simp only
      rw [ih (j + 1) (by omega)]
      rw [hget]
      have harith : (j + 1) + n = j + (n + 1) := by omega
      rw [hdrop, List.take_succ_cons, List.map_cons, harith]

/-- C1: pushing saved states S0..Sk into a fresh EditorHistory stores exactly
that list with the cursor on Sk; k undo calls then return Sk-1 down to S0 in
order, leaving the cursor on S0, and k redo calls return S1 up to Sk in
order, moving the cursor back to Sk; an undo with the cursor at index 0 and a
redo with the cursor at the last index return null and leave the history
unchanged, so nothing is restored; and restoring any saved memento puts the
editor in exactly the state that was saved. -/
theorem c1_memento_roundtrip (ss : List TextEditorMemento) (hne : ss ≠ []) :
    EditorHistory.pushAll EditorHistory.new ss
        = ⟨ss, ((ss.length - 1 : Nat) : Int)⟩
    ∧ EditorHistory.undoIter (ss.length - 1) ⟨ss, ((ss.length - 1 : Nat) : Int)⟩
        = (((ss.take (ss.length - 1)).reverse).map some, ⟨ss, 0⟩)
    ∧ EditorHistory.redoIter (ss.length - 1) ⟨ss, 0⟩
        = ((ss.drop 1).map some, ⟨ss, ((ss.length - 1 : Nat) : Int)⟩)
    ∧ EditorHistory.undo ⟨ss, 0⟩ = (none, ⟨ss, 0⟩)
    ∧ EditorHistory.redo ⟨ss, ((ss.length - 1 : Nat) : Int)⟩
        = (none, ⟨ss, ((ss.length - 1 : Nat) : Int)⟩)
    ∧ ∀ (e e' : TextEditor) (t : Nat), e'.restore (e.save t) = e := by
  have hlen : 1 ≤ ss.length := by
    cases ss with
    | nil => exact absurd rfl hne
    | cons a l => simp
  have hcast : ((ss.length - 1 : Nat) : Int) = (ss.length : Int) - 1 := by omega
  refine ⟨?_, ?_, ?_, ?_, ?_, ?_⟩
  · rw [EditorHistory.pushAll_new, hcast]
  · rw [EditorHistory.undoIter_spec ss (ss.length - 1) (ss.length - 1) le_rfl (by omega)]
    have hfull : (((ss.take (ss.length - 1)).reverse).take (ss.length - 1))
        = ((ss.take (ss.length - 1)).reverse) := by
      apply List.take_of_length_le
      simp
    rw [hfull]
    simp
  · have h := EditorHistory.redoIter_spec ss (ss.length - 1) 0 (by omega)
    rw [show ((0 : Nat) : Int) = (0 : Int) from rfl] at h
    rw [h]
    have hfull : ((ss.drop 1).take (ss.length - 1)) = ss.drop 1 := by
      apply List.take_of_length_le
      simp
    rw [hfull]
    simp
  · rw [EditorHistory.undo]
    simp
  · rw [EditorHistory.redo]
    dsimp only
    rw [if_neg (by omega)]
  · intro e e' t
    rfl

/-- A concrete memento for the C1 witness. -/
def sampleMemento (c : String) (t : Nat) : TextEditorMemento :=
  { content := c, cursorPosition := c.length, selection := ⟨0, 0⟩,
    fontName := "Arial", fontSize := 12, timestamp := t }

/-- Witness for C1 with the three saved states S0, S1, S2: both undos return
S1 then S0 and land on index 0, both redos return S1 then S2 and land back on
index 2, and the extra undo and redo at the ends are no-ops. -/
theorem c1_memento_roundtrip_witness :
    ([sampleMemento "a" 0, sampleMemento "ab" 1, sampleMemento "abc" 2] :
        List TextEditorMemento) ≠ []
    ∧ EditorHistory.undoIter 2
        ⟨[sampleMemento "a" 0, sampleMemento "ab" 1, sampleMemento "abc" 2], ((2 : Nat) : Int)⟩
        = ([some (sampleMemento "ab" 1), some (sampleMemento "a" 0)],
           ⟨[sampleMemento "a" 0, sampleMemento "ab" 1, sampleMemento "abc" 2], 0⟩)
    ∧ EditorHistory.undo
        ⟨[sampleMemento "a" 0, sampleMemento "ab" 1, sampleMemento "abc" 2], 0⟩
        = (none, ⟨[sampleMemento "a" 0, sampleMemento "ab" 1, sampleMemento "abc" 2], 0⟩) := by
  have h := c1_memento_roundtrip
    [sampleMemento "a" 0, sampleMemento "ab" 1, sampleMemento "abc" 2] (by simp)
  refine ⟨by simp, ?_, ?_⟩
  · have h2 := h.2.1
    simp only [List.length_cons, List.length_nil] at h2
    rw [show (3 - 1 : Nat) = 2 from rfl] at h2
    rw [h2]
    rfl
  · exact h.2.2.2.1

/-- EditorHistory.goToState in exception-modelling form.  The method body
contains no throw statement, so the translation wraps the plain result in
ok on every input. -/
def EditorHistory.goToStateE (h : EditorHistory) (index : Int) :
    Except String (Option TextEditorMemento × EditorHistory) :=
  .ok (h.goToState index)

/-- A concrete character for the C6 counterexample. -/
def sampleCharacter : GameCharacter :=
  { name := "Hero", level := 1, health := 100, inventory := [],
    position := (0, 0), skills := [] }

/-- C6 fails on the code: GameCharacterMemento.setLabel overwrites the label
field of a memento after its construction, and SaveManager.saveCharacter
invokes it whenever a custom label is supplied, storing a memento whose label
no longer equals the one written by the constructor. -/
theorem c6_memento_immutable_counterexample :
    ((sampleCharacter.save 0).setLabel "Before the boss").label
        ≠ (sampleCharacter.save 0).label
    ∧ ((sampleCharacter.save 0).setLabel "Before the boss") ≠ sampleCharacter.save 0
    ∧ (SaveManager.new.saveCharacter sampleCharacter (some "Before the boss") 0).savedGames
        = [("Hero", [(sampleCharacter.save 0).setLabel "Before the boss"])] := by
  refine ⟨by decide, by decide, ?_⟩
  rfl

/-- C6 amended: the TextEditor mementos are never mutated after construction
— push stores the given memento unchanged at the end of the list and
undo, redo and goToState return stored mementos unchanged, by position;
fields of a GameCharacterMemento other than the label are likewise never
mutated, and setLabel changes exactly the label; SaveManager.saveCharacter
stores character.save() unchanged when no custom label is supplied, and
stores it with only the label overwritten when one is. -/
theorem c6_memento_immutability_amended :
    (∀ (h : EditorHistory) (x : TextEditorMemento),
        h.undo.1 = some x → x ∈ h.states)
    ∧ (∀ (h : EditorHistory) (x : TextEditorMemento),
        h.redo.1 = some x → x ∈ h.states)
    ∧ (∀ (h : EditorHistory) (i : Int) (x : TextEditorMemento),
        (h.goToState i).1 = some x → x ∈ h.states)
    ∧ (∀ (h : EditorHistory) (m : TextEditorMemento),
        (h.push m).states.getLast? = some m
        ∧ ∀ x ∈ (h.push m).states, x ∈ h.states ∨ x = m)
    ∧ (∀ (m : GameCharacterMemento) (l : String),
        (m.setLabel l).name = m.name ∧ (m.setLabel l).level = m.level
        ∧ (m.setLabel l).health = m.health ∧ (m.setLabel l).inventory = m.inventory
        ∧ (m.setLabel l).position = m.position ∧ (m.setLabel l).skills = m.skills
        ∧ (m.setLabel l).timestamp = m.timestamp ∧ (m.setLabel l).label = l)
    ∧ (∀ (mgr : SaveManager) (ch : GameCharacter) (now : Nat),
        (mgr.saveCharacter ch none now).savedGames
          = mapSet mgr.savedGames ch.name
              (((mgr.savedGames.lookup ch.name).getD []) ++ [ch.save now]))
    ∧ (∀ (mgr : SaveManager) (ch : GameCharacter) (l : String) (now : Nat),
        (mgr.saveCharacter ch (some l) now).savedGames
          = mapSet mgr.savedGames ch.name
              (((mgr.savedGames.lookup ch.name).getD []) ++ [(ch.save now).setLabel l])) := by
  refine ⟨?_, ?_, ?_, ?_, ?_, ?_, ?_⟩
  · intro h x hx
    rw [EditorHistory.undo] at hx
    by_cases hc : 0 < h.currentStateIndex
    · rw [if_pos hc] at hx
      dsimp only at hx
      exact List.getElem?_mem hx
    · rw [if_neg hc] at hx
      simp at hx
  · intro h x hx
    rw [EditorHistory.redo] at hx
    by_cases hc : h.currentStateIndex < (h.states.length : Int) - 1
    · rw [if_pos hc] at hx
      dsimp only at hx
      exact List.getElem?_mem hx
    · rw [if_neg hc] at hx
      simp at hx
  · intro h i x hx
    rw [EditorHistory.goToState] at hx
    by_cases hc : 0 ≤ i ∧ i < (h.states.length : Int)
    · rw [if_pos hc] at hx
      dsimp only at hx
      exact List.getElem?_mem hx
    · rw [if_neg hc] at hx
      simp at hx
  · intro h m
    constructor
    · rw [EditorHistory.push]
      dsimp only
      exact List.getLast?_concat _
    · intro x hx
      rw [EditorHistory.push] at hx
      dsimp only at hx
      rcases List.mem_append.mp hx with hl | hr
      · by_cases hc : h.currentStateIndex < (h.states.length : Int) - 1
        · rw [if_pos hc] at hl
          exact Or.inl (List.take_subset _ _ hl)
        · rw [if_neg hc] at hl
          exact Or.inl hl
      · right
        simpa using hr
  · intro m l
    exact ⟨rfl, rfl, rfl, rfl, rfl, rfl, rfl, rfl⟩
  · intro mgr ch now
    rfl
  · intro mgr ch l now
    rfl

/-- Witness for the amended C6 at a one-element history and the sample
character. -/
theorem c6_memento_immutability_amended_witness :
    sampleMemento "a" 0 ∈
      (⟨[sampleMemento "a" 0, sampleMemento "ab" 1], 1⟩ : EditorHistory).states := by
  exact (c6_memento_immutability_amended.1
    ⟨[sampleMemento "a" 0, sampleMemento "ab" 1], 1⟩ (sampleMemento "a" 0) (by rfl))

end Memento

namespace Factory

/-- The three user kinds simple-factory.js can build.  The per-kind payload
fields (permissions, subscription, session) do not bear on the claims and
are omitted. -/
inductive UserKind where
  | admin
  | customer
  | guest
deriving DecidableEq

/-- UserFactory.createUser: a switch on type.toLowerCase() with the three
known cases; any other type throws the not-recognized error. -/
def UserFactory.createUser (type : String) : Except String UserKind :=
  let t := jsToLower type
  if t = "admin" then .ok .admin
  else if t = "customer" then .ok .customer
  else if t = "guest" then .ok .guest
  else .error ("User type " ++ type ++ " is not recognized.")

end Factory

namespace Bridge

/-- DeviceImplementation.turnOn, an unimplemented abstract operation: the
base-class method body is a single throw. -/
def DeviceImplementation.turnOn : Except String Unit :=
  .error "turnOn method must be implemented by concrete classes"

/-- SmartSpeaker.setChannel in exception-modelling form.  The method body
contains no throw statement — an invalid app index only logs — so the
translation wraps the plain result in ok on every input. -/
def SmartSpeaker.setChannelE (sp : SmartSpeaker) (appIndex : Int) :
    Except String SmartSpeaker :=
  .ok (sp.setChannel appIndex)

end Bridge

namespace Adapter

/-- The ModernPaymentAdapter of adapter.js: its intentMap, the Map from the
adapter's own transaction IDs to the modern API's intent IDs, filled by
processPayment.  The wrapped ModernPaymentAPI handle itself holds no state
the claims touch and is omitted. -/
structure ModernPaymentAdapter where
  intentMap : List (String × String)

/-- ModernPaymentAdapter.refundPayment: looks the transaction ID up in the
intentMap and throws "Unknown transaction ID: ..." when the entry is missing
(the JS truthiness test also fails on an empty intent ID); otherwise it calls
the modern API's createRefund with the found intent ID and the amount
converted to the smallest currency unit — the call never throws, and the ok
value carries what is passed to it.  The adapted result object built from the
API response only reshapes that response and is not modelled further. -/
def ModernPaymentAdapter.refundPayment (a : ModernPaymentAdapter)
    (transactionId : String) (amount : ℚ) : Except String (String × ℚ) :=
  match a.intentMap.lookup transactionId with
  | none => .error ("Unknown transaction ID: " ++ transactionId)
  | some "" => .error ("Unknown transaction ID: " ++ transactionId)
  | some intentId => .ok (intentId, amount * 100)

/-- ModernPaymentAdapter.verifyPayment: the same intentMap lookup with the
same "Unknown transaction ID: ..." throw on a missing entry; otherwise it
retrieves the payment intent by the found intent ID — the call never throws,
and the ok value carries the intent ID it is made with.  The status
remapping of the API response is not modelled further. -/
def ModernPaymentAdapter.verifyPayment (a : ModernPaymentAdapter)
    (transactionId : String) : Except String String :=
  match a.intentMap.lookup transactionId with
  | none => .error ("Unknown transaction ID: " ++ transactionId)
  | some "" => .error ("Unknown transaction ID: " ++ transactionId)
  | some intentId => .ok intentId

end Adapter

/-- C7 fails on the code: EditorHistory.goToState with an index outside the
stored states returns null without raising any error, and
SmartSpeaker.setChannel with an app index outside the available apps logs and
returns with the speaker unchanged, again without raising; both shown here on
concrete out-of-range inputs. -/
theorem c7_error_handling_counterexample :
    Memento.EditorHistory.goToStateE ⟨[], -1⟩ 5 = .ok (none, ⟨[], -1⟩)
    ∧ (Memento.EditorHistory.goToStateE ⟨[], -1⟩ 5).isOk = true
    ∧ Bridge.SmartSpeaker.setChannelE ((Bridge.SmartSpeaker.new "Amazon").turnOn) 10
        = .ok ((Bridge.SmartSpeaker.new "Amazon").turnOn)
    ∧ (Bridge.SmartSpeaker.setChannelE ((Bridge.SmartSpeaker.new "Amazon").turnOn) 10).isOk
        = true := by
  refine ⟨rfl, rfl, ?_, ?_⟩ <;> rfl

/-- C7 amended: unimplemented abstract operations throw, and so do
UserFactory.createUser on an unrecognized type and the
ModernPaymentAdapter operations on a transaction ID missing from the intent
map; but the out-of-range index cases do not throw — EditorHistory.goToState
returns null leaving the history unchanged, and SmartSpeaker.setChannel
returns with the speaker unchanged. -/
theorem c7_error_handling_amended :
    (∀ type : String, jsToLower type ≠ "admin" → jsToLower type ≠ "customer" →
        jsToLower type ≠ "guest" →
        Factory.UserFactory.createUser type
          = .error ("User type " ++ type ++ " is not recognized."))
    ∧ Bridge.DeviceImplementation.turnOn
        = .error "turnOn method must be implemented by concrete classes"
    ∧ (∀ (h : Memento.EditorHistory) (i : Int),
        ¬(0 ≤ i ∧ i < (h.states.length : Int)) →
        Memento.EditorHistory.goToStateE h i = .ok (none, h))
    ∧ (∀ (sp : Bridge.SmartSpeaker) (i : Int),
        ¬(0 ≤ i ∧ i < (sp.availableApps.length : Int)) →
        Bridge.SmartSpeaker.setChannelE sp i = .ok sp)
    ∧ (∀ (a : Adapter.ModernPaymentAdapter) (tid : String) (amount : ℚ),
        a.intentMap.lookup tid = none →
        a.refundPayment tid amount = .error ("Unknown transaction ID: " ++ tid)
        ∧ a.verifyPayment tid = .error ("Unknown transaction ID: " ++ tid)) := by
  refine ⟨?_, rfl, ?_, ?_, ?_⟩
  · intro type h1 h2 h3
    rw [Factory.UserFactory.createUser]
    rw [if_neg h1, if_neg h2, if_neg h3]
  · intro h i hi
    rw [Memento.EditorHistory.goToStateE, Memento.EditorHistory.goToState]
    rw [if_neg hi]
  · intro sp i hi
    rw [Bridge.SmartSpeaker.setChannelE, Bridge.SmartSpeaker.setChannel]
    by_cases hOn : sp.isOn = false
    · rw [if_pos hOn]
    · rw [if_neg hOn, if_neg hi]
  · intro a tid amount ht
    constructor
    · rw [Adapter.ModernPaymentAdapter.refundPayment, ht]
    · rw [Adapter.ModernPaymentAdapter.verifyPayment, ht]

/-- Witness for the amended C7: the unknown factory key "vip", an
out-of-range history index and app index, and a missing transaction. -/
theorem c7_error_handling_amended_witness :
    Factory.UserFactory.createUser "vip"
        = .error ("User type " ++ "vip" ++ " is not recognized.")
    ∧ Memento.EditorHistory.goToStateE ⟨[], -1⟩ 5 = .ok (none, ⟨[], -1⟩)
    ∧ Bridge.SmartSpeaker.setChannelE ((Bridge.SmartSpeaker.new "Amazon").turnOn) 10
        = .ok ((Bridge.SmartSpeaker.new "Amazon").turnOn)
    ∧ (⟨[("MODERN-1", "pi_1")]⟩ : Adapter.ModernPaymentAdapter).verifyPayment "txn2"
        = .error ("Unknown transaction ID: " ++ "txn2") := by
  refine ⟨?_, ?_, ?_, ?_⟩
  · exact c7_error_handling_amended.1 "vip" (by decide) (by decide) (by decide)
  · exact c7_error_handling_amended.2.2.1 ⟨[], -1⟩ 5 (by decide)
  · exact c7_error_handling_amended.2.2.2.1 ((Bridge.SmartSpeaker.new "Amazon").turnOn) 10
      (by decide)
  · exact (c7_error_handling_amended.2.2.2.2 ⟨[("MODERN-1", "pi_1")]⟩ "txn2" 0
      (by decide)).2
